import Mathlib

/-!
# Verification of the WhatsApp Google-Drive backup extractor core

A shallow embedding of the core of `src/main.py`: the integrity checker
(`have_file`), the transfer unit (`WaBackup.fetch` together with
`download_file`), the paginated lister (`WaBackup.get` / `get_page` /
`list_path`), and the result-consumption loop of the concurrent fetch
engine (`WaBackup.fetch_all`), with theorems settling the specification's
claims about them.

Modelling conventions:
* bytes are `Nat`s, file contents are `List Nat`;
* the local filesystem is a partial map from path strings to contents;
* Python's `str.split`, `sep.join` and `str.replace` are embedded as
  structural functions over `List Char` with the same semantics, so that
  every definition evaluates inside the kernel;
* external collaborators (the MD5 implementation in `hashlib`, base64
  decoding, and the remote HTTP endpoint) are opaque parameters collected
  in an `Env` record;
* loops whose termination depends on data (the chunked read loop, the
  pagination loop) take an explicit fuel argument; theorems show the fuel
  is irrelevant once it is at least the size of the data.
-/

namespace WaGdrive

/-- A byte value (the code never relies on the 0..255 bound). -/
abbrev Byte := Nat

/-- The local filesystem: maps a path to the byte content of the file
stored there, `none` when no file exists at that path. -/
abbrev FS := String → Option (List Byte)

/-! ## Embeddings of the Python string primitives used by `main.py` -/

/-- Python's `s.split(sep)` for a one-character separator `sep`, on the
character list of `s`: `"a/b".split("/") = ["a","b"]`, `"".split("/") = [""]`,
`"/a".split("/") = ["", "a"]`. -/
def splitChar (sep : Char) : List Char → List (List Char)
  | [] => [[]]
  | c :: cs =>
    match splitChar sep cs with
    | [] => [[]]
    | w :: ws => if c = sep then [] :: w :: ws else (c :: w) :: ws

/-- Python's `sep.join(words)` for a separator string `sep` (as a char list). -/
def joinSep (sep : List Char) : List (List Char) → List Char
  | [] => []
  | [w] => w
  | w :: ws => w ++ sep ++ joinSep sep ws

/-- Python's `s.replace(c, r)` for a one-character pattern `c`. -/
def replaceChar (c : Char) (r : List Char) : List Char → List Char
  | [] => []
  | x :: xs => (if x = c then r else [x]) ++ replaceChar c r xs

/-- One hexadecimal digit, lowercase, as produced by Python's `bytes.hex()`. -/
def hexDigit (n : Nat) : Char :=
  if n < 10 then Char.ofNat (48 + n) else Char.ofNat (87 + n)

/-- Python's `bytes.hex()`: two lowercase hex digits per byte. -/
def bytesToHex (bs : List Byte) : String :=
  String.mk (bs.foldr (fun b acc => hexDigit (b / 16) :: hexDigit (b % 16) :: acc) [])

/-! ## The integrity checker `have_file` (src/main.py lines 70-93) -/

/-- The read-and-update loop inside `have_file`: each iteration reads up to
`8 * 1024` bytes from the remaining content and feeds them to the digest,
breaking when the read returns no bytes.  `acc` is the byte stream fed to
the digest so far; the digest object's state is exactly that stream, since
`hashlib`'s `update` concatenates.  The fuel argument is an artifact of the
embedding; `bs.length` iterations always suffice because every iteration on
a non-empty remainder consumes at least one byte. -/
def digestFeed : Nat → List Byte → List Byte → List Byte
  | _, acc, [] => acc
  | 0, acc, _ :: _ => acc
  | fuel + 1, acc, b :: bs =>
      digestFeed fuel (acc ++ (b :: bs).take (8 * 1024)) ((b :: bs).drop (8 * 1024))

/-- `have_file(file, size, md5)` from src/main.py: returns `False` when the
path does not exist or the on-disk byte length differs from `size`;
otherwise streams the content through MD5 in 8 KiB chunks and compares the
final digest with `md5`.  `md5fn` is the opaque MD5 digest function
(`hashlib.md5(...).digest()` applied to the full fed stream). -/
def have_file (fs : FS) (md5fn : List Byte → List Byte) (file : String)
    (size : Nat) (md5 : List Byte) : Bool :=
  match fs file with
  | none => false
  | some content =>
    if size ≠ content.length then false
    else md5 == md5fn (digestFeed content.length [] content)

/-- `have_file` instrumented with a hash-work counter, mirroring the
structure of the source function exactly: the second component counts how
many times the content is opened, streamed and digested (0 = the content
was never read nor hashed, 1 = one full hash pass). -/
def have_file_instr (fs : FS) (md5fn : List Byte → List Byte) (file : String)
    (size : Nat) (md5 : List Byte) : Bool × Nat :=
  match fs file with
  | none => (false, 0)
  | some content =>
    if size ≠ content.length then (false, 0)
    else (md5 == md5fn (digestFeed content.length [] content), 1)

/-- The chunked read loop feeds exactly the whole content to the digest,
whenever the fuel covers the content length. -/
theorem digestFeed_eq (fuel : Nat) (acc bs : List Byte) (h : bs.length ≤ fuel) :
    digestFeed fuel acc bs = acc ++ bs := by
  induction fuel generalizing acc bs with
  | zero =>
    cases bs with
    | nil => simp [digestFeed]
    | cons b tl => simp at h
  | succ f ih =>
    cases bs with
    | nil => simp [digestFeed]
    | cons b tl =>
      rw [digestFeed, ih]
      · rw [List.append_assoc, List.take_append_drop]
      · simp only [List.length_drop]
        simp at h ⊢
        omega

/-- Characterization of `have_file`: true exactly when a file exists at the
path, has the expected byte length, and its full-content MD5 digest equals
the expected digest. -/
theorem have_file_iff (fs : FS) (md5fn : List Byte → List Byte) (file : String)
    (size : Nat) (md5 : List Byte) :
    have_file fs md5fn file size md5 = true ↔
      ∃ c, fs file = some c ∧ c.length = size ∧ md5fn c = md5 := by
  cases hfs : fs file with
  | none => simp [have_file, hfs]
  | some content =>
    by_cases hsz : size = content.length
    · subst hsz
      simp [have_file, hfs, digestFeed_eq content.length [] content (le_refl _),
        beq_iff_eq]
      constructor
      · intro h
        exact h.symm
      · intro h
        exact h.symm
    · simp [have_file, hfs, hsz]
      intro h1 h2
      exact hsz h1.symm

/-- The instrumented checker computes the same boolean as `have_file`. -/
theorem have_file_instr_fst (fs : FS) (md5fn : List Byte → List Byte)
    (file : String) (size : Nat) (md5 : List Byte) :
    (have_file_instr fs md5fn file size md5).1 = have_file fs md5fn file size md5 := by
  unfold have_file_instr have_file
  cases fs file with
  | none => rfl
  | some content =>
    by_cases hsz : size ≠ content.length <;> simp [hsz]

/-! ## The transfer unit `WaBackup.fetch` (src/main.py lines 222-240)
together with `download_file` (lines 95-106) -/

/-- A file record as returned by the listing API, after JSON parsing:
`name` is the hierarchical resource identifier, `sizeBytes` the declared
size (the wire carries it as a decimal string, read through `int(...)`),
`md5Hash` the base64-encoded declared content digest as it appears on the
wire. -/
structure FileRecord where
  name : String
  sizeBytes : Nat
  md5Hash : String

/-- The tuple `(name, size, md5Hash)` returned by `WaBackup.fetch`. -/
structure FetchResult where
  name : String
  size : Nat
  md5 : List Byte
deriving DecidableEq

/-- The external collaborators of the transfer unit:
`md5fn` is `hashlib`'s MD5 digest over a full byte stream, `b64` is
`base64.b64decode`, `remote` gives the body served by a streaming
`GET <identifier>?alt=media` (writing its chunks in order reassembles
exactly this body), and `sep` is `os.path.sep` on the host. -/
structure Env where
  md5fn : List Byte → List Byte
  b64 : String → List Byte
  remote : String → List Byte
  sep : Char

/-- The local-path derivation in `WaBackup.fetch`:
`os.path.sep.join(file["name"].split("/")[3:])`. -/
def deriveName (sep : Char) (name : String) : String :=
  String.mk (joinSep [sep] ((splitChar '/' name.data).drop 3))

/-- The identifier escaping in `WaBackup.fetch`:
`file["name"].replace("%", "%25").replace("+", "%2B")`. -/
def escapeId (cs : List Char) : List Char :=
  replaceChar '+' ['%', '2', 'B'] (replaceChar '%' ['%', '2', '5'] cs)

/-- `WaBackup.fetch(file)` as a transformer of the local filesystem.
Returns the filesystem after the call, the number of network requests
issued, and the returned `(name, size, md5Hash)` tuple.  When the local
copy passes `have_file` the code skips the download entirely; otherwise
`download_file` creates the parent directories and writes the streamed
`GET ...?alt=media` body to the derived path chunk by chunk, which leaves
the remote body as the file's content.  Note the returned size and digest
are the declared record values in both branches; the code does not
re-inspect the written file. -/
def fetch (env : Env) (fs : FS) (file : FileRecord) : FS × Nat × FetchResult :=
  let name := deriveName env.sep file.name
  let md5Hash := env.b64 file.md5Hash
  if have_file fs env.md5fn name file.sizeBytes md5Hash = true then
    (fs, 0, ⟨name, file.sizeBytes, md5Hash⟩)
  else
    let body := env.remote (String.mk (escapeId file.name.data))
    (fun p => if p = name then some body else fs p, 1, ⟨name, file.sizeBytes, md5Hash⟩)

/-! ## The paginated lister (src/main.py lines 135-199):
`WaBackup.get`, `get_page` and `list_path` -/

/-- A parsed JSON page body: `arrays` gives, per field name, the record
array stored under that field (`none` when the field is absent from the
body), and `nextPageToken` the optional continuation cursor. -/
structure PageBody (α : Type) where
  arrays : String → Option (List α)
  nextPageToken : Option String

/-- What the transport does for one request, keyed by the `pageToken`
parameter (`none` on the first request): either the request raises before
`response` is assigned (connection error, timeout, ...), or a response
comes back with HTTP status ok or not and a parsed JSON body. -/
inductive HttpResult (α : Type) where
  | connFail
  | resp (ok : Bool) (body : PageBody α)

/-- How a run of `list_path` can end abnormally. -/
inductive ListErr where
  /-- `WaBackup.get` caught a request exception before `response` was
  assigned, so its `return response` raises `UnboundLocalError`. -/
  | unboundLocal
  /-- `page[last_component]` raised `KeyError`: the page body has no field
  named after the last path component. -/
  | keyError
  /-- Artifact of the embedding: the loop fuel ran out. -/
  | outOfFuel
deriving DecidableEq

/-- `WaBackup.get`: every `requests` exception is caught and printed, and
the function falls through to `return response` regardless of the HTTP
status (`raise_for_status`'s exception is swallowed).  If the exception
struck before `response` was bound, `return response` itself raises
`UnboundLocalError`; otherwise the response object is returned even when
its status is an error. -/
def get {α : Type} (http : Option String → HttpResult α) (tok : Option String) :
    Except ListErr (PageBody α) :=
  match http tok with
  | .connFail => .error .unboundLocal
  | .resp _ body => .ok body

/-- The loop of `WaBackup.list_path`, with `get_page` inlined as
`(get ...).json()`: fetch a page, yield every element of `page[key]` in
order, stop if `"nextPageToken" not in page`, else continue with the new
cursor.  Returns the items yielded before the generator finished together
with the error that ended it, if any.  Fuel is an embedding artifact:
one unit per page request. -/
def list_pathAux {α : Type} (http : Option String → HttpResult α) (key : String) :
    Nat → Option String → List α × Option ListErr
  | 0, _ => ([], some .outOfFuel)
  | fuel + 1, tok =>
    match get http tok with
    | .error e => ([], some e)
    | .ok page =>
      match page.arrays key with
      | none => ([], some .keyError)
      | some items =>
        match page.nextPageToken with
        | none => (items, none)
        | some t =>
          let rest := list_pathAux http key fuel (some t)
          (items ++ rest.1, rest.2)

/-- `path.split("/")[-1]` in `list_path`. -/
def lastComponent (path : String) : String :=
  String.mk ((splitChar '/' path.data).getLastD [])

/-- `WaBackup.list_path(path)`: the first request carries no cursor. -/
def list_path {α : Type} (http : Option String → HttpResult α) (path : String)
    (fuel : Nat) : List α × Option ListErr :=
  list_pathAux http (lastComponent path) fuel none

/-- The transport serves the cursor-linked chain of pages `chain` starting
from request token `tok`: each request succeeds with the next page of the
chain, every page but the last carries the cursor leading to its
successor, and the last page carries no cursor. -/
def serves {α : Type} (http : Option String → HttpResult α) :
    Option String → List (PageBody α) → Prop
  | _, [] => False
  | tok, [p] => http tok = .resp true p ∧ p.nextPageToken = none
  | tok, p :: q :: rest =>
    http tok = .resp true p ∧
      ∃ t, p.nextPageToken = some t ∧ serves http (some t) (q :: rest)

/-- The transport serves the pages of `chain` from token `tok` and the
chain's cursors then lead to the request token `tokNext` (which is not
part of the chain and may fail). -/
def servedThen {α : Type} (http : Option String → HttpResult α) :
    Option String → List (PageBody α) → Option String → Prop
  | tok, [], tokNext => tok = tokNext
  | tok, p :: ps, tokNext =>
    http tok = .resp true p ∧
      ∃ t, p.nextPageToken = some t ∧ servedThen http (some t) ps tokNext

/-! ## The concurrent fetch engine `WaBackup.fetch_all`
(src/main.py lines 242-265) -/

/-- The checksum line written per completed file:
`f"{md5Hash.hex()} *{name}\n"`. -/
def ledgerLine (r : FetchResult) : String :=
  bytesToHex r.md5 ++ " *" ++ r.name ++ "\n"

/-- What the result-consumption loop of `fetch_all` has done when it ends:
the counters `num_files`/`total_size`, the checksum lines written to
`cksums` in order, and the exception that aborted the loop, if any. -/
structure RunStats where
  num_files : Nat
  total_size : Nat
  lines : List String
  err : Option String
deriving DecidableEq

/-- The `for name, size, md5Hash in downloads:` loop of `fetch_all`.
`outcomes` is the stream delivered by `pool.imap_unordered(fetch, files)`
in completion order (thread scheduling is external, so the order is a
parameter): one entry per file, either the `fetch` return tuple or the
exception the worker raised (`fetch` and `fetch_all` contain no handler,
so `imap_unordered` re-raises a worker's exception here when its slot is
consumed, which ends the loop; entries after it are never consumed). -/
def fetch_allLoop : List (Except String FetchResult) → RunStats
  | [] => ⟨0, 0, [], none⟩
  | .error e :: _ => ⟨0, 0, [], some e⟩
  | .ok r :: rest =>
    let s := fetch_allLoop rest
    ⟨s.num_files + 1, s.total_size + r.size, ledgerLine r :: s.lines, s.err⟩

/-! ## Helper lemmas about the pagination loop -/

/-- On a transport serving the cursor-linked chain `chain` whose pages
carry the record arrays `itemss` under `key`, the loop yields the
concatenation of the arrays and finishes cleanly, for any fuel covering
the page count. -/
theorem list_pathAux_chain {α : Type} (http : Option String → HttpResult α)
    (key : String) (chain : List (PageBody α)) (itemss : List (List α))
    (tok : Option String) (fuel : Nat)
    (hserve : serves http tok chain)
    (hitems : chain.map (fun p => p.arrays key) = itemss.map some)
    (hfuel : chain.length ≤ fuel) :
    list_pathAux http key fuel tok = (itemss.flatten, none) := by
  induction chain generalizing tok fuel itemss with
  | nil => exact absurd hserve (by simp [serves])
  | cons p ps ih =>
    cases itemss with
    | nil => simp at hitems
    | cons items itemss' =>
      simp only [List.map_cons, List.cons.injEq] at hitems
      obtain ⟨hp, hps⟩ := hitems
      obtain ⟨fuel, rfl⟩ : ∃ f, fuel = f + 1 := by
        cases fuel with
        | zero => simp at hfuel
        | succ f => exact ⟨f, rfl⟩
      cases ps with
      | nil =>
        obtain ⟨hhttp, htok⟩ := hserve
        cases itemss' with
        | cons _ _ => simp at hps
        | nil =>
          simp [list_pathAux, get, hhttp, hp, htok]
      | cons q qs =>
        obtain ⟨hhttp, t, htok, hrest⟩ := hserve
        have hlen : (q :: qs).length ≤ fuel := by
          simp at hfuel ⊢
          omega
        simp [list_pathAux, get, hhttp, hp, htok,
          ih itemss' (some t) fuel hrest hps hlen]

/-- On a transport serving the chain `chain` and then answering the
request at the chain's final cursor `tokNext` in a way whose first loop
iteration yields no items and the error `e`, the loop yields the chain's
records and then signals `e`. -/
theorem list_pathAux_served_then {α : Type} (http : Option String → HttpResult α)
    (key : String) (chain : List (PageBody α)) (itemss : List (List α))
    (tok tokNext : Option String) (e : ListErr) (fuel : Nat)
    (hpre : servedThen http tok chain tokNext)
    (hitems : chain.map (fun p => p.arrays key) = itemss.map some)
    (herr : ∀ f, list_pathAux http key (f + 1) tokNext = ([], some e))
    (hfuel : chain.length < fuel) :
    list_pathAux http key fuel tok = (itemss.flatten, some e) := by
  induction chain generalizing tok fuel itemss with
  | nil =>
    cases itemss with
    | cons _ _ => simp at hitems
    | nil =>
      obtain ⟨fuel, rfl⟩ : ∃ f, fuel = f + 1 := by
        cases fuel with
        | zero => simp at hfuel
        | succ f => exact ⟨f, rfl⟩
      cases hpre
      simpa using herr fuel
  | cons p ps ih =>
    cases itemss with
    | nil => simp at hitems
    | cons items itemss' =>
      simp only [List.map_cons, List.cons.injEq] at hitems
      obtain ⟨hp, hps⟩ := hitems
      obtain ⟨fuel, rfl⟩ : ∃ f, fuel = f + 1 := by
        cases fuel with
        | zero => simp at hfuel
        | succ f => exact ⟨f, rfl⟩
      obtain ⟨hhttp, t, htok, hrest⟩ := hpre
      have hlen : ps.length < fuel := by
        simp at hfuel
        omega
      simp [list_pathAux, get, hhttp, hp, htok,
        ih itemss' (some t) fuel hrest hps hlen]

/-! ## Concrete data used by witnesses and counterexamples -/

/-- First page of a two-page listing of `clients/wa/backups`: records `[1, 2]`
and a continuation cursor. -/
def pgA : PageBody Nat := ⟨fun k => if k = "backups" then some [1, 2] else none, some "tk1"⟩

/-- Terminal page: record `[3]`, no continuation cursor. -/
def pgB : PageBody Nat := ⟨fun k => if k = "backups" then some [3] else none, none⟩

/-- A transport serving the chain `[pgA, pgB]`. -/
def twoPageHttp : Option String → HttpResult Nat
  | none => .resp true pgA
  | some _ => .resp true pgB

/-- A transport serving `pgA` and then failing at connection level. -/
def dropHttp : Option String → HttpResult Nat
  | none => .resp true pgA
  | some _ => .connFail

/-- A transport serving `pgA` and then answering with an HTTP error whose
body lacks the listing field. -/
def failRespHttp : Option String → HttpResult Nat
  | none => .resp true pgA
  | some _ => .resp false ⟨fun _ => none, none⟩

/-- A page body with no fields at all. -/
def missingFieldBody : PageBody Nat := ⟨fun _ => none, none⟩

/-- A transport whose pages lack the listing field. -/
def missingFieldHttp : Option String → HttpResult Nat :=
  fun _ => .resp true missingFieldBody

/-- A transport that always fails with an HTTP error whose body does carry
the listing field. -/
def errBodyHttp : Option String → HttpResult Nat :=
  fun _ => .resp false ⟨fun k => if k = "backups" then some [7] else none, none⟩

/-! ## Claim C1: pagination completeness -/

/-- Claim C1: on a finite listing whose records are split across the
cursor-linked chain of pages `chain` (first page answered to the
cursor-less request, each further page answered to its predecessor's
`nextPageToken`, last page without one), `list_path` yields every element
of every page's record array, pages in chain order and elements in the
order received — `itemss.flatten` — then terminates cleanly; the number of
records yielded is the sum of the page record counts.  Any fuel of at
least one unit per page gives this same result. -/
theorem list_path_pagination_complete {α : Type}
    (http : Option String → HttpResult α) (path : String)
    (chain : List (PageBody α)) (itemss : List (List α)) (fuel : Nat)
    (hserve : serves http none chain)
    (hitems : chain.map (fun p => p.arrays (lastComponent path)) = itemss.map some)
    (hfuel : chain.length ≤ fuel) :
    list_path http path fuel = (itemss.flatten, none)
    ∧ (list_path http path fuel).1.length = (itemss.map List.length).sum := by
  have h := list_pathAux_chain http (lastComponent path) chain itemss none fuel
    hserve hitems hfuel
  have h' : list_path http path fuel = (itemss.flatten, none) := h
  refine ⟨h', ?_⟩
  rw [h']
  simp

/-- Witness for claim C1's theorem: three records split across the two
pages `pgA`, `pgB` are yielded completely and in page order. -/
theorem list_path_pagination_complete_witness :
    list_path twoPageHttp "clients/wa/backups" 2 = ([1, 2, 3], none)
    ∧ (list_path twoPageHttp "clients/wa/backups" 2).1.length = 3 := by
  obtain ⟨h1, h2⟩ := list_path_pagination_complete twoPageHttp "clients/wa/backups"
    [pgA, pgB] [[1, 2], [3]] 2 ⟨rfl, "tk1", rfl, rfl, rfl⟩ (by decide) (by decide)
  exact ⟨by simpa using h1, by simpa using h2⟩

/-! ## Claim C10: a missing record-array field raises KeyError -/

/-- Claim C10: when the first page's JSON body lacks the array field named
after the last path segment (as for an empty remote collection), the
subscription `page[last_component]` raises `KeyError`: `list_path` yields
no items and ends with the `keyError` signal, which is not the clean
termination an empty sequence would be — so an empty collection is not
observable as an empty yielded sequence at the lister's interface. -/
theorem list_path_missing_field_keyerror {α : Type}
    (http : Option String → HttpResult α) (path : String) (fuel : Nat)
    (ok : Bool) (body : PageBody α)
    (hresp : http none = .resp ok body)
    (hmissing : body.arrays (lastComponent path) = none) :
    list_path http path (fuel + 1) = ([], some ListErr.keyError)
    ∧ some ListErr.keyError ≠ (none : Option ListErr) := by
  refine ⟨?_, by simp⟩
  simp [list_path, list_pathAux, get, hresp, hmissing]

/-- Witness for claim C10's theorem: a transport whose page carries no
fields makes `list_path` signal `keyError`. -/
theorem list_path_missing_field_keyerror_witness :
    list_path missingFieldHttp "clients/wa/backups" 1 = ([], some ListErr.keyError)
    ∧ some ListErr.keyError ≠ (none : Option ListErr) :=
  list_path_missing_field_keyerror missingFieldHttp "clients/wa/backups" 0 true
    missingFieldBody rfl rfl

/-! ## Claim C9: failure signaling of the listing traversal -/

/-- Counterexample to claim C9 as stated: an underlying page request that
fails unrecoverably (HTTP error status, `ok = false`) but whose response
body still carries the listing field is processed silently — `WaBackup.get`
catches the `raise_for_status` exception, prints, and returns the failed
response, so `list_path` yields the body's items and terminates with no
error signal; the consumer cannot distinguish this failed listing from an
exhausted one. -/
theorem list_path_swallowed_http_error_cex :
    errBodyHttp none
        = HttpResult.resp false ⟨fun k => if k = "backups" then some [7] else none, none⟩
    ∧ list_path errBodyHttp "clients/wa/backups" 1 = ([7], none) :=
  ⟨rfl, by decide⟩

/-- Claim C9 as amended: after any successfully served chain of pages, a
page request that fails at connection level surfaces as an error
(`UnboundLocalError` from `get`'s `return response`), and a request whose
failed response body lacks the listing field surfaces as a `KeyError`; in
both cases the sequence ends with an error signal rather than silently
yielding an empty tail.  (Only a failed response whose body still carries
the listing field — excluded here, see the counterexample — is swallowed.) -/
theorem list_path_failure_surfaces {α : Type}
    (http : Option String → HttpResult α) (path : String)
    (chain : List (PageBody α)) (itemss : List (List α))
    (tokNext : Option String) (fuel : Nat)
    (hpre : servedThen http none chain tokNext)
    (hitems : chain.map (fun p => p.arrays (lastComponent path)) = itemss.map some)
    (hfuel : chain.length < fuel) :
    (http tokNext = .connFail →
      list_path http path fuel = (itemss.flatten, some ListErr.unboundLocal))
    ∧ (∀ ok body, http tokNext = .resp ok body →
        body.arrays (lastComponent path) = none →
        list_path http path fuel = (itemss.flatten, some ListErr.keyError)) := by
  constructor
  · intro hfail
    exact list_pathAux_served_then http (lastComponent path) chain itemss none tokNext
      ListErr.unboundLocal fuel hpre hitems
      (fun f => by simp [list_pathAux, get, hfail]) hfuel
  · intro ok body hresp hmiss
    exact list_pathAux_served_then http (lastComponent path) chain itemss none tokNext
      ListErr.keyError fuel hpre hitems
      (fun f => by simp [list_pathAux, get, hresp, hmiss]) hfuel

/-- Witness for claim C9's amended theorem: after the page `pgA`, a
connection-level failure surfaces as `unboundLocal`, and a failed response
without the listing field surfaces as `keyError`. -/
theorem list_path_failure_surfaces_witness :
    list_path dropHttp "clients/wa/backups" 2 = ([1, 2], some ListErr.unboundLocal)
    ∧ list_path failRespHttp "clients/wa/backups" 2 = ([1, 2], some ListErr.keyError) := by
  constructor
  · have h := (list_path_failure_surfaces dropHttp "clients/wa/backups" [pgA] [[1, 2]]
      (some "tk1") 2 ⟨rfl, "tk1", rfl, rfl⟩ (by decide) (by decide)).1 rfl
    simpa using h
  · have h := (list_path_failure_surfaces failRespHttp "clients/wa/backups" [pgA] [[1, 2]]
      (some "tk1") 2 ⟨rfl, "tk1", rfl, rfl⟩ (by decide) (by decide)).2
      false ⟨fun _ => none, none⟩ rfl rfl
    simpa using h

/-! ## Claim C3: correctness of the integrity checker -/

/-- Claim C3: `have_file` returns true if and only if a file exists at the
path, its byte length equals the expected size, and the MD5 digest of its
full content (streamed through the digest in bounded chunks) equals the
expected digest byte for byte; a file is accepted as present only when
both the size check and the hash check pass. -/
theorem have_file_present_iff (fs : FS) (md5fn : List Byte → List Byte)
    (file : String) (size : Nat) (md5 : List Byte) :
    have_file fs md5fn file size md5 = true ↔
      ∃ c, fs file = some c ∧ c.length = size ∧ md5fn c = md5 :=
  have_file_iff fs md5fn file size md5

/-! ## Claim C6: the size short-circuit computes no hash -/

/-- A filesystem whose every path holds the two-byte file `[1, 2]`. -/
def mismatchFS : FS := fun _ => some [1, 2]

/-- An empty local filesystem. -/
def emptyFS : FS := fun _ => none

/-- Claim C6: whenever the path does not exist or the local file's byte
length differs from the expected size, `have_file` returns false
immediately, with zero content reads and zero content-hash computations
(the instrumented checker's counter stays 0). -/
theorem have_file_size_short_circuit (fs : FS) (md5fn : List Byte → List Byte)
    (file : String) (size : Nat) (md5 : List Byte)
    (h : ∀ c, fs file = some c → c.length ≠ size) :
    have_file_instr fs md5fn file size md5 = (false, 0)
    ∧ have_file fs md5fn file size md5 = false := by
  cases hfs : fs file with
  | none => simp [have_file_instr, have_file, hfs]
  | some content =>
    have hne : size ≠ content.length := (h content hfs).symm
    simp [have_file_instr, have_file, hfs, hne]

/-- Witness for claim C6's theorem: a two-byte file checked against an
expected size of 1 is rejected with no hash work. -/
theorem have_file_size_short_circuit_witness :
    have_file_instr mismatchFS (fun _ => []) "f" 1 [] = (false, 0)
    ∧ have_file mismatchFS (fun _ => []) "f" 1 [] = false :=
  have_file_size_short_circuit mismatchFS (fun _ => []) "f" 1 []
    (fun c hc => by cases hc; decide)

/-! ## Claim C5: the local path derivation -/

/-- An environment for concrete `fetch` runs: every remote body is empty,
every digest is `[0]`, the host separator is `/`. -/
def cexEnv : Env := ⟨fun _ => [0], fun _ => [0], fun _ => [], '/'⟩

/-- The spec's path-derivation example identifier, declared size 3. -/
def imgFile : FileRecord := ⟨"clients/wa/backups/b1/files/Media/img1.jpg", 3, "aGFzaA=="⟩

/-- Counterexample to claim C5 as stated: `fetch` derives the local path
for the identifier `"clients/wa/backups/b1/files/Media/img1.jpg"` as
`"b1/files/Media/img1.jpg"` — the code drops only the three segments
`clients/wa/backups`, keeping the backup id and the `files` segment — not
the claimed `"Media/img1.jpg"`. -/
theorem fetch_path_derivation_cex :
    (fetch cexEnv emptyFS imgFile).2.2.name = "b1/files/Media/img1.jpg"
    ∧ (fetch cexEnv emptyFS imgFile).2.2.name ≠ "Media/img1.jpg" := by
  decide

/-- Claim C5 as amended: `fetch` derives the local relative path by
dropping the first three slash-separated segments of the remote
identifier (the fixed `clients/wa/backups` collection prefix) and joining
the remainder with the host separator; the example identifier maps to
`b1/files/Media/img1.jpg` under `/` and to `b1\files\Media\img1.jpg`
under `\`. -/
theorem fetch_path_three_segments (env : Env) (fs : FS) (file : FileRecord) :
    (fetch env fs file).2.2.name
        = String.mk (joinSep [env.sep] ((splitChar '/' file.name.data).drop 3))
    ∧ deriveName '/' "clients/wa/backups/b1/files/Media/img1.jpg"
        = "b1/files/Media/img1.jpg"
    ∧ deriveName '\\' "clients/wa/backups/b1/files/Media/img1.jpg"
        = "b1\\files\\Media\\img1.jpg" := by
  refine ⟨?_, by decide, by decide⟩
  simp only [fetch]
  split <;> rfl

/-! ## Claim C4: fetching is idempotent -/

/-- A filesystem already holding the verified copy of `presentFile`. -/
def presentFS : FS := fun p => if p = "b1/files/a" then some [] else none

/-- An environment under which `presentFile`'s local copy passes the
integrity check: the declared digest decodes to `[7]` and the MD5 of the
empty content is `[7]`. -/
def presentEnv : Env := ⟨fun _ => [7], fun _ => [7], fun _ => [9], '/'⟩

/-- A record whose local copy under `presentEnv`/`presentFS` is valid. -/
def presentFile : FileRecord := ⟨"clients/wa/backups/b1/files/a", 0, "Bw=="⟩

/-- Claim C4: when the local copy at the derived path already satisfies
the integrity check, `fetch` returns the success tuple while issuing zero
network requests and leaving the filesystem untouched; and for any
starting filesystem, running `fetch` twice in sequence leaves exactly the
local state of running it once. -/
theorem fetch_idempotent (env : Env) (fs : FS) (file : FileRecord)
    (h : have_file fs env.md5fn (deriveName env.sep file.name) file.sizeBytes
      (env.b64 file.md5Hash) = true) :
    fetch env fs file
        = (fs, 0, ⟨deriveName env.sep file.name, file.sizeBytes, env.b64 file.md5Hash⟩)
    ∧ ∀ fs' : FS, (fetch env (fetch env fs' file).1 file).1 = (fetch env fs' file).1 := by
  constructor
  · simp [fetch, h]
  · intro fs'
    by_cases h1 : have_file fs' env.md5fn (deriveName env.sep file.name) file.sizeBytes
        (env.b64 file.md5Hash) = true
    · simp [fetch, h1]
    · have hfs1 : (fetch env fs' file).1
          = fun p => if p = deriveName env.sep file.name
              then some (env.remote (String.mk (escapeId file.name.data))) else fs' p := by
        simp [fetch, h1]
      rw [hfs1]
      by_cases h2 : have_file
          (fun p => if p = deriveName env.sep file.name
            then some (env.remote (String.mk (escapeId file.name.data))) else fs' p)
          env.md5fn (deriveName env.sep file.name) file.sizeBytes
          (env.b64 file.md5Hash) = true
      · simp [fetch, h2]
      · simp only [fetch, h2, if_false]
        funext p
        by_cases hp : p = deriveName env.sep file.name <;> simp [hp]

/-- Witness for claim C4's theorem: fetching `presentFile` over its valid
local copy is a no-op with zero network requests, and double fetching
equals single fetching. -/
theorem fetch_idempotent_witness :
    fetch presentEnv presentFS presentFile
        = (presentFS, 0, ⟨deriveName presentEnv.sep presentFile.name,
            presentFile.sizeBytes, presentEnv.b64 presentFile.md5Hash⟩)
    ∧ ∀ fs' : FS, (fetch presentEnv (fetch presentEnv fs' presentFile).1 presentFile).1
        = (fetch presentEnv fs' presentFile).1 :=
  fetch_idempotent presentEnv presentFS presentFile (by decide)

/-! ## Claim C8: post-transfer verification -/

/-- A record declaring five bytes, used against a remote that serves an
empty body. -/
def declaredFile : FileRecord := ⟨"clients/wa/backups/b1/files/Media/a.bin", 5, "xx"⟩

/-- Counterexample to claim C8 as stated: `fetch` reports success with the
declared size 5 for `declaredFile`, yet the file it just wrote at the
derived path holds the empty remote body — the returned size does not
match the local file, because the code never re-verifies after a
download. -/
theorem fetch_no_postdownload_verify_cex :
    (fetch cexEnv emptyFS declaredFile).2.2.size = 5
    ∧ (fetch cexEnv emptyFS declaredFile).1 "b1/files/Media/a.bin" = some []
    ∧ (((fetch cexEnv emptyFS declaredFile).1 "b1/files/Media/a.bin").getD []).length
        ≠ (fetch cexEnv emptyFS declaredFile).2.2.size := by
  decide

/-- Claim C8 as amended: the size and hash in `fetch`'s success tuple are
the record's declared values in both branches.  They are verified against
the local file only in the skip branch: when the local copy passed
`have_file`, the file at the derived path really has the returned length
and digest.  In the download branch the local content afterwards is
exactly the remote body and the returned declared size/hash are not
re-checked against it. -/
theorem fetch_success_postcondition (env : Env) (fs : FS) (file : FileRecord) :
    (have_file fs env.md5fn (deriveName env.sep file.name) file.sizeBytes
        (env.b64 file.md5Hash) = true →
      ∃ c, fs (deriveName env.sep file.name) = some c
        ∧ c.length = (fetch env fs file).2.2.size
        ∧ env.md5fn c = (fetch env fs file).2.2.md5)
    ∧ (have_file fs env.md5fn (deriveName env.sep file.name) file.sizeBytes
        (env.b64 file.md5Hash) = false →
      (fetch env fs file).1 (deriveName env.sep file.name)
          = some (env.remote (String.mk (escapeId file.name.data)))
        ∧ (fetch env fs file).2.2.size = file.sizeBytes
        ∧ (fetch env fs file).2.2.md5 = env.b64 file.md5Hash) := by
  constructor
  · intro h
    obtain ⟨c, hc, hlen, hmd5⟩ := (have_file_iff fs env.md5fn
      (deriveName env.sep file.name) file.sizeBytes (env.b64 file.md5Hash)).mp h
    exact ⟨c, hc, by simp [fetch, h, hlen], by simp [fetch, h, hmd5]⟩
  · intro h
    refine ⟨?_, ?_, ?_⟩ <;> simp [fetch, h]

/-- Witness for claim C8's theorem, both branches: the verified skip
branch on `presentFile` and the unverified download branch on `imgFile`. -/
theorem fetch_success_postcondition_witness :
    (∃ c, presentFS (deriveName presentEnv.sep presentFile.name) = some c
      ∧ c.length = (fetch presentEnv presentFS presentFile).2.2.size
      ∧ presentEnv.md5fn c = (fetch presentEnv presentFS presentFile).2.2.md5)
    ∧ ((fetch cexEnv emptyFS imgFile).1 (deriveName cexEnv.sep imgFile.name)
          = some (cexEnv.remote (String.mk (escapeId imgFile.name.data)))
        ∧ (fetch cexEnv emptyFS imgFile).2.2.size = imgFile.sizeBytes
        ∧ (fetch cexEnv emptyFS imgFile).2.2.md5 = cexEnv.b64 imgFile.md5Hash) :=
  ⟨(fetch_success_postcondition presentEnv presentFS presentFile).1 (by decide),
   (fetch_success_postcondition cexEnv emptyFS imgFile).2 (by decide)⟩

/-! ## Claim C2: behavior of the engine under a per-file failure -/

/-- A completion-order outcome stream for a batch of 5 files in which
exactly one transfer (consumed third) raised. -/
def abortOutcomes : List (Except String FetchResult) :=
  [.ok ⟨"f1", 1, [1]⟩, .ok ⟨"f2", 1, [2]⟩, .error "simulated transfer failure",
   .ok ⟨"f4", 1, [4]⟩, .ok ⟨"f5", 1, [5]⟩]

/-- Counterexample to claim C2 as stated: on a batch of 5 files where one
transfer fails, `fetch_all` does not write one ledger line per successful
file and does not keep the failure inside the pool — `fetch` has no
handler, so the exception is re-raised in the result loop, which here
stops after writing 2 lines (not 4) and lets the error escape. -/
theorem fetch_all_failure_aborts_cex :
    (fetch_allLoop abortOutcomes).err = some "simulated transfer failure"
    ∧ (fetch_allLoop abortOutcomes).lines.length = 2
    ∧ ¬((fetch_allLoop abortOutcomes).lines.length = 4
        ∧ (fetch_allLoop abortOutcomes).err = none) := by
  decide

/-- Claim C2 as amended: a per-file failure is not caught anywhere — it
crosses the worker-pool boundary as an exception and aborts the batch.
`fetch_all`'s loop consumes the completion-order outcome stream, writes
exactly one ledger line per success consumed before the failing outcome,
and re-raises the failure when its slot is consumed; successes after it
(`post`) are never consumed, and no failure outcome is recorded. -/
theorem fetch_all_abort_behavior (pre : List FetchResult) (e : String)
    (post : List (Except String FetchResult)) :
    fetch_allLoop (pre.map Except.ok ++ Except.error e :: post)
      = ⟨pre.length, (pre.map FetchResult.size).sum, pre.map ledgerLine, some e⟩ := by
  induction pre with
  | nil => simp [fetch_allLoop]
  | cons r rs ih => simp [fetch_allLoop, ih, Nat.add_comm]

/-! ## Claim C7: the ledger line format -/

/-- Claim C7: for every batch whose transfers all succeed, `fetch_all`
appends exactly one ledger line per file, of the form
`hex(digest) ++ " *" ++ relative_path ++ "\n"`; in particular the line for
path `Media/img1.jpg` with digest bytes `9e107d9d372bb6826bd81d3542a419d6`
reads back, up to its trailing newline, as
`9e107d9d372bb6826bd81d3542a419d6 *Media/img1.jpg`. -/
theorem ledger_line_format (rs : List FetchResult) :
    (fetch_allLoop (rs.map Except.ok)).lines
        = rs.map (fun r => bytesToHex r.md5 ++ " *" ++ r.name ++ "\n")
    ∧ ledgerLine ⟨"Media/img1.jpg", 0, [0x9e, 0x10, 0x7d, 0x9d, 0x37, 0x2b, 0xb6, 0x82,
          0x6b, 0xd8, 0x1d, 0x35, 0x42, 0xa4, 0x19, 0xd6]⟩
        = "9e107d9d372bb6826bd81d3542a419d6 *Media/img1.jpg" ++ "\n" := by
  refine ⟨?_, by decide⟩
  induction rs with
  | nil => simp [fetch_allLoop]
  | cons r rs ih => simp [fetch_allLoop, ih, ledgerLine]

end WaGdrive
